import Mathlib

/-!
Verification of the cross-validation / KNN / auto-model utilities in `ml.py`.

The Python code is shallowly embedded over `List ℚ` (numpy float arrays become
rational lists; `NaN` slots of a freshly allocated `pd.Series` become `none`).
Each definition mirrors one piece of the source, named after it.
-/

/-- Arithmetic mean of a list of rationals (`np.mean`; division by zero on an
empty list yields `0`, standing in for numpy's `nan`). -/
def meanQ (l : List ℚ) : ℚ := l.sum / l.length

/-- Insert into a sorted list, keeping earlier elements before equal ones. -/
def insertSorted (x : ℚ) : List ℚ → List ℚ
  | [] => [x]
  | y :: ys => if x ≤ y then x :: y :: ys else y :: insertSorted x ys

/-- Insertion sort on rationals (the order statistics used by `np.median`). -/
def sortQ (l : List ℚ) : List ℚ := l.foldr insertSorted []

/-- `np.median` of a 1-D array: middle order statistic for odd length, the
average of the two middle order statistics for even length. -/
def npMedian (l : List ℚ) : ℚ :=
  let s := sortQ l
  if l.length % 2 = 1 then s.getD (l.length / 2) 0
  else (s.getD (l.length / 2 - 1) 0 + s.getD (l.length / 2) 0) / 2

/- ### Generic list-access lemmas used throughout -/

theorem getD_set_ne {α : Type} (l : List α) (i j : ℕ) (a : α) (d : α) (h : i ≠ j) :
    (l.set i a).getD j d = l.getD j d := by
  induction l generalizing i j with
  | nil => simp [List.set]
  | cons x xs ih =>
    cases i with
    | zero =>
      cases j with
      | zero => exact absurd rfl h
      | succ j => simp [List.set, List.getD]
    | succ i =>
      cases j with
      | zero => simp [List.set, List.getD]
      | succ j =>
        simp only [List.set, List.getD_cons_succ]
        exact ih i j (fun hc => h (by omega))

theorem getD_set_self {α : Type} (l : List α) (i : ℕ) (a : α) (d : α) (h : i < l.length) :
    (l.set i a).getD i d = a := by
  induction l generalizing i with
  | nil => simp at h
  | cons x xs ih =>
    cases i with
    | zero => simp [List.set, List.getD]
    | succ i =>
      simp only [List.set, List.getD_cons_succ]
      exact ih i (by simpa using h)

theorem getD_append_left {α : Type} (l₁ l₂ : List α) (r : ℕ) (d : α) (h : r < l₁.length) :
    (l₁ ++ l₂).getD r d = l₁.getD r d := by
  induction l₁ generalizing r with
  | nil => simp at h
  | cons x xs ih =>
    cases r with
    | zero => simp [List.getD]
    | succ r =>
      simp only [List.cons_append, List.getD_cons_succ]
      exact ih r (by simpa using h)

theorem getD_map_of_lt {α β : Type} (l : List α) (f : α → β) (q : ℕ) (dα : α) (dβ : β)
    (h : q < l.length) : (l.map f).getD q dβ = f (l.getD q dα) := by
  induction l generalizing q with
  | nil => simp at h
  | cons x xs ih =>
    cases q with
    | zero => simp [List.getD]
    | succ q =>
      simp only [List.map_cons, List.getD_cons_succ]
      exact ih q (by simpa using h)

theorem getD_range_map {β : Type} (n : ℕ) (f : ℕ → β) (j : ℕ) (d : β) (h : j < n) :
    ((List.range n).map f).getD j d = f j := by
  have h1 : j < (List.range n).length := by simpa using h
  rw [getD_map_of_lt (List.range n) f j 0 d h1, List.getD_eq_getElem _ _ h1,
    List.getElem_range]

/- ### C1: out-of-fold assembly in `RegressorCV.fit` -/

/-- `self.oof_train_.iloc[test_index] = y_pred` for one fold: positional writes
of the fold's predictions into the out-of-fold series.  `preds` is parallel to
`testIdx` (the fold model's predictions on `X_test`, row for row). -/
def writeFold (oof : List (Option ℚ)) (testIdx : List ℕ) (preds : List ℚ) : List (Option ℚ) :=
  (testIdx.zip preds).foldl (fun o jv => o.set jv.1 (some jv.2)) oof

/-- The fold loop of `RegressorCV.fit` restricted to what it does to
`oof_train_`: `f` is the running fold number (`enumerate`), `p f i` is the
prediction the fold-`f` model makes for sample `i`. -/
def oofFitAux (p : ℕ → ℕ → ℚ) (f : ℕ) (folds : List (List ℕ)) (oof : List (Option ℚ)) :
    List (Option ℚ) :=
  match folds with
  | [] => oof
  | t :: rest => oofFitAux p (f + 1) rest (writeFold oof t (t.map (p f)))

/-- `RegressorCV.fit`'s effect on `oof_train_`: start from an all-missing
series of length `n` (`pd.Series(index=y.index, dtype='float64')`) and run the
fold loop over the splitter's test-index lists. -/
def oofFit (n : ℕ) (folds : List (List ℕ)) (p : ℕ → ℕ → ℚ) : List (Option ℚ) :=
  oofFitAux p 0 folds (List.replicate n none)

theorem writeFold_length (testIdx : List ℕ) (preds : List ℚ) (oof : List (Option ℚ)) :
    (writeFold oof testIdx preds).length = oof.length := by
  unfold writeFold
  generalize testIdx.zip preds = l
  induction l generalizing oof with
  | nil => rfl
  | cons x xs ih => simpa [List.foldl_cons] using ih (oof.set x.1 (some x.2))

theorem writeFold_getD_of_not_mem (oof : List (Option ℚ)) (t : List ℕ) (preds : List ℚ)
    (i : ℕ) (hi : i ∉ t) : (writeFold oof t preds).getD i none = oof.getD i none := by
  unfold writeFold
  induction t generalizing preds oof with
  | nil => rfl
  | cons j t ih =>
    cases preds with
    | nil => rfl
    | cons v preds =>
      simp only [List.zip_cons_cons, List.foldl_cons]
      have hne : j ≠ i := fun h => hi (h ▸ List.mem_cons_self j t)
      have hrest : i ∉ t := fun h => hi (List.mem_cons_of_mem j h)
      rw [ih (oof.set j (some v)) preds hrest, getD_set_ne _ _ _ _ _ hne]

theorem writeFold_getD_of_mem (oof : List (Option ℚ)) (t : List ℕ) (g : ℕ → ℚ)
    (i : ℕ) (hnd : t.Nodup) (hi : i ∈ t) (hlen : i < oof.length) :
    (writeFold oof t (t.map g)).getD i none = some (g i) := by
  induction t generalizing oof with
  | nil => simp at hi
  | cons j t ih =>
    have hstep : writeFold oof (j :: t) ((j :: t).map g)
        = writeFold (oof.set j (some (g j))) t (t.map g) := rfl
    rcases List.mem_cons.mp hi with hij | hit
    · subst hij
      have hnotin : i ∉ t := (List.nodup_cons.mp hnd).1
      rw [hstep, writeFold_getD_of_not_mem _ _ _ _ hnotin, getD_set_self _ _ _ _ hlen]
    · have hnd' : t.Nodup := (List.nodup_cons.mp hnd).2
      rw [hstep, ih _ hnd' hit (by simpa using hlen)]

theorem oofFitAux_length (p : ℕ → ℕ → ℚ) (f : ℕ) (folds : List (List ℕ))
    (oof : List (Option ℚ)) : (oofFitAux p f folds oof).length = oof.length := by
  induction folds generalizing f oof with
  | nil => rfl
  | cons t rest ih =>
    simpa [oofFitAux, writeFold_length] using ih (f + 1) (writeFold oof t (t.map (p f)))

theorem oofFitAux_getD_of_not_mem (p : ℕ → ℕ → ℚ) (f : ℕ) (folds : List (List ℕ))
    (oof : List (Option ℚ)) (i : ℕ) (hi : ∀ t ∈ folds, i ∉ t) :
    (oofFitAux p f folds oof).getD i none = oof.getD i none := by
  induction folds generalizing f oof with
  | nil => rfl
  | cons t rest ih =>
    have h1 : i ∉ t := hi t (List.mem_cons_self t rest)
    have h2 : ∀ u ∈ rest, i ∉ u := fun u hu => hi u (List.mem_cons_of_mem t hu)
    calc (oofFitAux p f (t :: rest) oof).getD i none
        = (oofFitAux p (f + 1) rest (writeFold oof t (t.map (p f)))).getD i none := rfl
      _ = (writeFold oof t (t.map (p f))).getD i none := ih (f + 1) _ h2
      _ = oof.getD i none := writeFold_getD_of_not_mem _ _ _ _ h1

theorem oofFitAux_getD_of_mem (p : ℕ → ℕ → ℚ) (f : ℕ) (folds : List (List ℕ))
    (oof : List (Option ℚ)) (i m : ℕ) (hm : m < folds.length)
    (hi : i ∈ folds.get ⟨m, hm⟩)
    (hdisj : folds.Pairwise (fun a b => ∀ x ∈ a, x ∉ b))
    (hnd : ∀ t ∈ folds, t.Nodup)
    (hlen : ∀ t ∈ folds, ∀ j ∈ t, j < oof.length) :
    (oofFitAux p f folds oof).getD i none = some (p (f + m) i) := by
  induction folds generalizing f m oof with
  | nil => simp at hm
  | cons t rest ih =>
    cases m with
    | zero =>
      have hit : i ∈ t := hi
      have hrest : ∀ u ∈ rest, i ∉ u := by
        intro u hu
        exact (List.pairwise_cons.mp hdisj).1 u hu i hit
      have hndt : t.Nodup := hnd t (List.mem_cons_self t rest)
      have hlt : i < oof.length := hlen t (List.mem_cons_self t rest) i hit
      calc (oofFitAux p f (t :: rest) oof).getD i none
          = (oofFitAux p (f + 1) rest (writeFold oof t (t.map (p f)))).getD i none := rfl
        _ = (writeFold oof t (t.map (p f))).getD i none :=
            oofFitAux_getD_of_not_mem p (f + 1) rest _ i hrest
        _ = some (p f i) := writeFold_getD_of_mem oof t (p f) i hndt hit hlt
        _ = some (p (f + 0) i) := by rw [Nat.add_zero]
    | succ m =>
      have hm' : m < rest.length := by simpa using hm
      have hi' : i ∈ rest.get ⟨m, hm'⟩ := hi
      have hdisj' : rest.Pairwise (fun a b => ∀ x ∈ a, x ∉ b) :=
        (List.pairwise_cons.mp hdisj).2
      have hnd' : ∀ u ∈ rest, u.Nodup := fun u hu => hnd u (List.mem_cons_of_mem t hu)
      have hlen' : ∀ u ∈ rest, ∀ j ∈ u, j < (writeFold oof t (t.map (p f))).length := by
        intro u hu j hj
        rw [writeFold_length]
        exact hlen u (List.mem_cons_of_mem t hu) j hj
      calc (oofFitAux p f (t :: rest) oof).getD i none
          = (oofFitAux p (f + 1) rest (writeFold oof t (t.map (p f)))).getD i none := rfl
        _ = some (p (f + 1 + m) i) := ih (f + 1) _ m hm' hi' hdisj' hnd' hlen'
        _ = some (p (f + (m + 1)) i) := by rw [Nat.add_assoc, Nat.add_comm 1 m]

/-- C1.  For the general cross-validator `RegressorCV`, whenever the splitter's
test-index lists partition the sample index set `{0, …, n-1}` (pairwise
disjoint, duplicate-free, jointly covering), after `fit` completes the
out-of-fold series `oof_train_` holds, at every sample `i` belonging to fold
`m`, exactly the prediction made by fold `m`'s model — the entry is
non-missing, no other fold's test set contains `i`, and the series keeps
length `n`. -/
theorem regressorCV_oof_partition (n : ℕ) (folds : List (List ℕ)) (p : ℕ → ℕ → ℚ)
    (i m : ℕ) (hm : m < folds.length) (hi : i ∈ folds.get ⟨m, hm⟩)
    (hdisj : folds.Pairwise (fun a b => ∀ x ∈ a, x ∉ b))
    (hnd : ∀ t ∈ folds, t.Nodup)
    (hsub : ∀ t ∈ folds, ∀ j ∈ t, j < n)
    (hcov : ∀ j < n, ∃ t ∈ folds, j ∈ t) :
    (oofFit n folds p).getD i none = some (p m i)
      ∧ ((oofFit n folds p).getD i none).isSome = true
      ∧ (∀ m' (hm' : m' < folds.length), m' ≠ m → i ∉ folds.get ⟨m', hm'⟩)
      ∧ (oofFit n folds p).length = n
      ∧ (∀ j < n, ((oofFit n folds p).getD j none).isSome = true) := by
  have hlen : ∀ t ∈ folds, ∀ j ∈ t, j < (List.replicate n (none : Option ℚ)).length := by
    intro t ht j hj
    rw [List.length_replicate]
    exact hsub t ht j hj
  have hmain : (oofFit n folds p).getD i none = some (p m i) := by
    have := oofFitAux_getD_of_mem p 0 folds _ i m hm hi hdisj hnd hlen
    simpa [oofFit] using this
  have hpair : ∀ a b : ℕ, ∀ (ha : a < folds.length) (hb : b < folds.length), a < b →
      ∀ x ∈ folds.get ⟨a, ha⟩, x ∉ folds.get ⟨b, hb⟩ := by
    intro a b ha hb hab
    exact (List.pairwise_iff_get.mp hdisj) ⟨a, ha⟩ ⟨b, hb⟩ hab
  refine ⟨hmain, by rw [hmain]; rfl, ?_, ?_, ?_⟩
  · intro m' hm' hne hmem
    rcases Nat.lt_or_ge m' m with hlt | hge
    · exact hpair m' m hm' hm hlt i hmem hi
    · have hlt : m < m' := Nat.lt_of_le_of_ne hge (fun h => hne h.symm)
      exact hpair m m' hm hm' hlt i hi hmem
  · rw [oofFit, oofFitAux_length, List.length_replicate]
  · intro j hj
    rcases hcov j hj with ⟨t, ht, hjt⟩
    rcases List.mem_iff_get.mp ht with ⟨⟨a, ha⟩, rfl⟩
    have := oofFitAux_getD_of_mem p 0 folds _ j a ha hjt hdisj hnd hlen
    rw [oofFit, this]
    rfl

/-- Witness for C1 at a concrete 4-sample, 2-fold partition. -/
theorem regressorCV_oof_partition_witness :
    (oofFit 4 [[0, 2], [1, 3]] (fun f _ => (f : ℚ))).getD 3 none
      = some ((fun f _ => (f : ℚ)) 1 3) :=
  (regressorCV_oof_partition 4 [[0, 2], [1, 3]] (fun f _ => (f : ℚ)) 3 1
    (by decide) (by decide) (by decide) (by decide) (by decide) (by decide)).1

/- ### C2: `RegressorCV.predict` aggregates by per-sample median -/

/-- `np.median(y_preds, axis=0)`: per-column median of a stack of equally long
rows (the common width is read off the first row, as numpy reads it off the
stacked array's shape). -/
def npMedianAxis0 (rows : List (List ℚ)) : List ℚ :=
  (List.range (rows.headD []).length).map (fun s => npMedian (rows.map (fun r => r.getD s 0)))

/-- `RegressorCV.predict`: loop over the stored per-fold estimators
(`self.cv_results_.reg.values`) collecting `reg.predict(X)`, then take
`np.median(y_preds, axis=0)`.  An estimator is modelled as a function from the
query set to its per-sample prediction list. -/
def regressorCVPredict {α : Type} (regs : List (α → List ℚ)) (X : α) : List ℚ :=
  let y_preds := regs.foldl (fun acc reg => acc ++ [reg X]) []
  npMedianAxis0 y_preds

theorem foldl_append_singleton {α β : Type} (g : α → β) (l : List α) (acc : List β) :
    l.foldl (fun a r => a ++ [g r]) acc = acc ++ l.map g := by
  induction l generalizing acc with
  | nil => simp
  | cons x xs ih => simp [ih]

/-- C2.  `RegressorCV.predict` collects one prediction per stored per-fold
estimator and returns, for each sample position `s`, the median (numpy median:
middle order statistic, averaging the two middle ones for an even fold count)
of those per-fold predictions — not their mean. -/
theorem regressorCV_predict_median {α : Type} (regs : List (α → List ℚ)) (X : α) (s : ℕ)
    (hs : s < ((regs.map (fun r => r X)).headD []).length) :
    (regressorCVPredict regs X).getD s 0
      = npMedian (regs.map (fun r => (r X).getD s 0)) := by
  unfold regressorCVPredict npMedianAxis0
  rw [foldl_append_singleton (fun r => r X) regs []]
  simp only [List.nil_append]
  rw [getD_range_map _ _ _ _ hs, List.map_map]
  rfl

/-- Witness for C2: three folds predicting 1, 3, 2 for sample 0 give median 2. -/
theorem regressorCV_predict_median_witness :
    (regressorCVPredict
        [fun _ => [(1 : ℚ), 5], fun _ => [3, 6], fun _ => [2, 7]] ()).getD 0 0
      = npMedian [(1 : ℚ), 3, 2] :=
  regressorCV_predict_median
    [fun _ => [(1 : ℚ), 5], fun _ => [3, 6], fun _ => [2, 7]] () 0 (by decide)

/- ### KNNRegressor.predict (C3, C4, C5, C9) -/

/-- One row of sklearn's `_get_weights(dist, 'distance')`: reciprocal
distances, except that a row containing a zero distance becomes its 0/1
zero-distance indicator mask (the `inf_mask` special case). -/
def getWeightsDistanceRow (row : List ℚ) : List ℚ :=
  if row.any (fun x => x = 0) then row.map (fun x => if x = 0 then 1 else 0)
  else row.map (fun x => 1 / x)

/-- sklearn `_get_weights(neigh_dist, 'distance')`, row by row. -/
def getWeightsDistance (neighDist : List (List ℚ)) : List (List ℚ) :=
  neighDist.map getWeightsDistanceRow

/-- The distance-weighted branch of `KNNRegressor.predict`: for each query
(rows of `neighInd` and `w` in parallel) and each output dimension
`j < d`, `np.sum(_y[neigh_ind, j] * weights, axis=1) / np.sum(weights, axis=1)`.
`Y2` is the 2-D `_y`, `d` its column count (`_y.shape[1]`). -/
def knnWeighted (Y2 : List (List ℚ)) (neighInd : List (List ℕ)) (w : List (List ℚ))
    (d : ℕ) : List (List ℚ) :=
  (neighInd.zip w).map (fun niw =>
    (List.range d).map (fun j =>
      ((niw.1.zip niw.2).map (fun iw => (Y2.getD iw.1 []).getD j 0 * iw.2)).sum
        / niw.2.sum))

/-- The prediction block of `KNNRegressor.predict` after `_y` has been brought
to 2-D shape `(n_train, d)`.  With uniform weighting (`weights is None`),
`pred_calc='mean'` takes `np.mean(_y[neigh_ind], axis=1)` and
`pred_calc='median'` takes `np.median(_y[neigh_ind], axis=1)`; any other value
leaves `y_pred` unassigned, so the call fails (`none`).  With weights, the
weighted-average branch runs regardless of `pred_calc`. -/
def knnPredictCore (Y2 : List (List ℚ)) (d : ℕ) (neighInd : List (List ℕ))
    (weights : Option (List (List ℚ))) (predCalc : String) : Option (List (List ℚ)) :=
  match weights with
  | none =>
    if predCalc = "mean" then
      some (neighInd.map (fun ni =>
        (List.range d).map (fun j => meanQ (ni.map (fun i => (Y2.getD i []).getD j 0)))))
    else if predCalc = "median" then
      some (neighInd.map (fun ni =>
        (List.range d).map (fun j => npMedian (ni.map (fun i => (Y2.getD i []).getD j 0)))))
    else none
  | some w => some (knnWeighted Y2 neighInd w d)

/-- `KNNRegressor.predict` for a 1-D target vector `y` (the common regression
case): `_y` is reshaped to a single column, `_get_weights` yields `none` for
uniform weighting and the reciprocal-distance matrix otherwise, and the 2-D
result is `ravel`led back to one prediction per query. -/
def knnPredictPy (y : List ℚ) (neighDist : List (List ℚ)) (neighInd : List (List ℕ))
    (weightsUniform : Bool) (predCalc : String) : Option (List ℚ) :=
  let Y2 := y.map (fun v => [v])
  let w := if weightsUniform then none else some (getWeightsDistance neighDist)
  (knnPredictCore Y2 1 neighInd w predCalc).map (fun rows => rows.map (fun r => r.getD 0 0))


theorem knnPredictPy_uniform_unfold (y : List ℚ) (neighDist : List (List ℚ))
    (neighInd : List (List ℕ)) (predCalc : String) :
    knnPredictPy y neighDist neighInd true predCalc
      = (knnPredictCore (y.map (fun v => [v])) 1 neighInd none predCalc).map
          (fun rows => rows.map (fun r => r.getD 0 0)) := rfl

theorem knnPredictCore_uniform_mean (Y2 : List (List ℚ)) (d : ℕ)
    (neighInd : List (List ℕ)) :
    knnPredictCore Y2 d neighInd none "mean"
      = some (neighInd.map (fun ni =>
          (List.range d).map (fun j => meanQ (ni.map (fun i => (Y2.getD i []).getD j 0))))) := by
  unfold knnPredictCore
  rw [if_pos rfl]

theorem knnPredictCore_uniform_median (Y2 : List (List ℚ)) (d : ℕ)
    (neighInd : List (List ℕ)) :
    knnPredictCore Y2 d neighInd none "median"
      = some (neighInd.map (fun ni =>
          (List.range d).map (fun j => npMedian (ni.map (fun i => (Y2.getD i []).getD j 0))))) := by
  unfold knnPredictCore
  rw [if_neg (by decide), if_pos rfl]

theorem singleton_col_getD (y : List ℚ) (i : ℕ) :
    (((y.map (fun v => [v])).getD i []).getD 0 0) = y.getD i 0 := by
  rcases Nat.lt_or_ge i y.length with hlt | hge
  · rw [getD_map_of_lt y (fun v => [v]) i 0 [] hlt]
    rfl
  · have h1 : (y.map (fun v => [v])).getD i [] = [] :=
      List.getD_eq_default _ _ (by simpa using hge)
    have h2 : y.getD i 0 = 0 := List.getD_eq_default _ _ hge
    rw [h1, h2]
    rfl

/-- C3.  With uniform weighting, `KNNRegressor.predict` returns per query the
unweighted mean of the `k` nearest targets under `pred_calc='mean'`, and their
median under `pred_calc='median'`. -/
theorem knnPredict_uniform_mean_median (y : List ℚ) (neighDist : List (List ℚ))
    (neighInd : List (List ℕ)) :
    knnPredictPy y neighDist neighInd true "mean"
        = some (neighInd.map (fun ni => meanQ (ni.map (fun i => y.getD i 0))))
      ∧ knnPredictPy y neighDist neighInd true "median"
        = some (neighInd.map (fun ni => npMedian (ni.map (fun i => y.getD i 0)))) := by
  constructor
  · rw [knnPredictPy_uniform_unfold, knnPredictCore_uniform_mean]
    simp only [Option.map_some', List.map_map]
    congr 1
    apply List.map_congr_left
    intro ni _
    simp only [Function.comp_apply]
    rw [getD_range_map 1 _ 0 0 (by decide)]
    congr 1
    apply List.map_congr_left
    intro i _
    exact singleton_col_getD y i
  · rw [knnPredictPy_uniform_unfold, knnPredictCore_uniform_median]
    simp only [Option.map_some', List.map_map]
    congr 1
    apply List.map_congr_left
    intro ni _
    simp only [Function.comp_apply]
    rw [getD_range_map 1 _ 0 0 (by decide)]
    congr 1
    apply List.map_congr_left
    intro i _
    exact singleton_col_getD y i

/-- C9.  With uniform weighting, any `pred_calc` other than `'mean'` or
`'median'` leaves `y_pred` unassigned, so `KNNRegressor.predict` fails instead
of returning a value: the embedded call yields `none`. -/
theorem knnPredict_uniform_bad_pred_calc (y : List ℚ) (neighDist : List (List ℚ))
    (neighInd : List (List ℕ)) (predCalc : String)
    (h1 : predCalc ≠ "mean") (h2 : predCalc ≠ "median") :
    knnPredictPy y neighDist neighInd true predCalc = none := by
  rw [knnPredictPy_uniform_unfold]
  unfold knnPredictCore
  rw [if_neg h1, if_neg h2]
  rfl

/-- Witness for C9 at `pred_calc='max'`. -/
theorem knnPredict_uniform_bad_pred_calc_witness :
    knnPredictPy [1, 2] [[0]] [[0]] true "max" = none :=
  knnPredict_uniform_bad_pred_calc [1, 2] [[0]] [[0]] "max" (by decide) (by decide)

theorem zip_replicate_mul_sum (t : ℕ → ℚ) (u : ℚ) (l : List ℕ) :
    ((l.zip (List.replicate l.length u)).map (fun iw => t iw.1 * iw.2)).sum
      = u * (l.map t).sum := by
  induction l with
  | nil => simp
  | cons x xs ih =>
    simp only [List.length_cons, List.replicate_succ, List.zip_cons_cons, List.map_cons,
      List.sum_cons, ih, List.map_cons, List.sum_cons]
    ring

theorem getWeightsDistanceRow_const (k : ℕ) (c : ℚ) :
    getWeightsDistanceRow (List.replicate k c)
      = List.replicate k (if c = 0 then 1 else 1 / c) := by
  unfold getWeightsDistanceRow
  by_cases hc : c = 0
  · subst hc
    cases k with
    | zero => simp
    | succ k => simp [List.replicate_succ, List.map_replicate]
  · rw [if_neg]
    · simp [List.map_replicate, hc]
    · simp [List.any_eq_true, hc]

/-- C4.  In the distance-weighted branch of `KNNRegressor.predict`, the entry
for query `q` and output dimension `j` is the sum of weighted neighbor targets
divided by the sum of the weights; consequently, when all `k` neighbor
distances of query `q` equal the same value `c`, the weighted output equals
the unweighted mean of the `k` neighbor targets. -/
theorem knnWeighted_ratio_and_equal_distance (Y2 : List (List ℚ))
    (neighDist : List (List ℚ)) (neighInd : List (List ℕ)) (d q j k : ℕ) (c : ℚ)
    (hq : q < neighInd.length) (hql : neighDist.length = neighInd.length)
    (hdist : neighDist.getD q [] = List.replicate k c)
    (hni : (neighInd.getD q []).length = k) (hk : 0 < k) (hc : 0 ≤ c) (hj : j < d) :
    (((knnWeighted Y2 neighInd (getWeightsDistance neighDist) d).getD q []).getD j 0
        = (((neighInd.getD q []).zip ((getWeightsDistance neighDist).getD q [])).map
            (fun iw => (Y2.getD iw.1 []).getD j 0 * iw.2)).sum
          / ((getWeightsDistance neighDist).getD q []).sum)
      ∧ ((knnWeighted Y2 neighInd (getWeightsDistance neighDist) d).getD q []).getD j 0
        = meanQ ((neighInd.getD q []).map (fun i => (Y2.getD i []).getD j 0)) := by
  have hwlen : (getWeightsDistance neighDist).length = neighInd.length := by
    rw [getWeightsDistance, List.length_map, hql]
  have hzlen : q < (neighInd.zip (getWeightsDistance neighDist)).length := by
    rw [List.length_zip, hwlen, Nat.min_self]
    exact hq
  have hzget : (neighInd.zip (getWeightsDistance neighDist)).getD q ([], [])
      = (neighInd.getD q [], (getWeightsDistance neighDist).getD q []) := by
    rw [List.getD_eq_getElem _ _ hzlen, List.getElem_zip,
      List.getD_eq_getElem _ _ hq, List.getD_eq_getElem _ _ (by rw [hwlen]; exact hq)]
  have hrow : (knnWeighted Y2 neighInd (getWeightsDistance neighDist) d).getD q []
      = (List.range d).map (fun j =>
          (((neighInd.getD q []).zip ((getWeightsDistance neighDist).getD q [])).map
            (fun iw => (Y2.getD iw.1 []).getD j 0 * iw.2)).sum
          / ((getWeightsDistance neighDist).getD q []).sum) := by
    unfold knnWeighted
    rw [getD_map_of_lt _ _ q ([], []) [] hzlen, hzget]
  have hfirst : ((knnWeighted Y2 neighInd (getWeightsDistance neighDist) d).getD q []).getD j 0
      = (((neighInd.getD q []).zip ((getWeightsDistance neighDist).getD q [])).map
          (fun iw => (Y2.getD iw.1 []).getD j 0 * iw.2)).sum
        / ((getWeightsDistance neighDist).getD q []).sum := by
    rw [hrow, getD_range_map d _ j 0 hj]
  refine ⟨hfirst, ?_⟩
  have hwq : (getWeightsDistance neighDist).getD q []
      = List.replicate k (if c = 0 then 1 else 1 / c) := by
    rw [getWeightsDistance, getD_map_of_lt neighDist getWeightsDistanceRow q [] []
      (by rw [hql]; exact hq), hdist, getWeightsDistanceRow_const]
  set u : ℚ := if c = 0 then 1 else 1 / c with hu
  have hune : u ≠ 0 := by
    rw [hu]
    by_cases hc0 : c = 0
    · simp [hc0]
    · simp [hc0, hc0]
  rw [hfirst, hwq]
  have hrep : List.replicate k u = List.replicate (neighInd.getD q []).length u := by
    rw [hni]
  rw [hrep, zip_replicate_mul_sum (fun i => (Y2.getD i []).getD j 0) u (neighInd.getD q []),
    List.sum_replicate, nsmul_eq_mul, hni]
  unfold meanQ
  rw [List.length_map, hni]
  rw [mul_comm (k : ℚ) u]
  exact mul_div_mul_left _ _ hune

/-- Witness for C4: three neighbors at equal distance 2 with targets 1, 2, 3
give weighted output 2 = mean. -/
theorem knnWeighted_ratio_and_equal_distance_witness :
    ((knnWeighted [[1], [2], [3]] [[0, 1, 2]]
        (getWeightsDistance [[2, 2, 2]]) 1).getD 0 []).getD 0 0
      = meanQ (([0, 1, 2] : List ℕ).map (fun i =>
          (([[1], [2], [3]] : List (List ℚ)).getD i []).getD 0 0)) :=
  (knnWeighted_ratio_and_equal_distance [[1], [2], [3]] [[2, 2, 2]] [[0, 1, 2]]
    1 0 0 3 2 (by decide) (by decide) (by decide) (by decide) (by decide) (by decide)
    (by decide)).2

/- ### C5: the `return_match_index` block of `KNNRegressor.predict` -/

/-- Stable insertion step for an index/value argsort. -/
def insertPairLE (p : ℕ × ℚ) : List (ℕ × ℚ) → List (ℕ × ℚ)
  | [] => [p]
  | q :: qs => if p.2 ≤ q.2 then p :: q :: qs else q :: insertPairLE p qs

/-- `np.argsort` of a 1-D array: the positions that would sort the values
ascending (stable; numpy's default sort agrees on distinct values). -/
def argsortQ (l : List ℚ) : List ℕ :=
  ((l.zip (List.range l.length)).map (fun p => (p.2, p.1))).foldr insertPairLE []
    |>.map (fun p => p.1)

/-- The `return_match_index=True` block of `KNNRegressor.predict` for a 1-D
target vector, exactly as written: `d = _y[neigh_ind]` is taken from the local
`_y` that was already reshaped to a single column, so each row of `d` is the
list of one-element lists `[[y i] for i in ni]`; `np.argsort(d)` therefore
sorts along the trailing singleton axis, `[:, middle_idx]` picks row
`n_neighbors // 2` of that result, and `ni[mi]` gathers those positions from
the neighbor-index row. -/
def knnMatchIndex (y : List ℚ) (neighInd : List (List ℕ)) (n_neighbors : ℕ) :
    List (List ℕ) :=
  let Y2 := y.map (fun v => [v])
  let middle_idx := n_neighbors / 2
  neighInd.map (fun ni =>
    let d := ni.map (fun i => Y2.getD i [])
    let a := d.map (fun r => argsortQ r)
    let mi := a.getD middle_idx []
    mi.map (fun m => ni.getD m 0))

/-- Modelled from the spec: the intended result of `return_match_index` — for
each query, the index (into the training set) of the neighbor whose target
value is the positional median among the targets of its `k` nearest
neighbors (`k` odd). -/
def knnMatchIndexSpec (y : List ℚ) (neighInd : List (List ℕ)) (n_neighbors : ℕ) :
    List ℕ :=
  neighInd.map (fun ni =>
    ni.getD ((argsortQ (ni.map (fun i => y.getD i 0))).getD (n_neighbors / 2) 0) 0)

/-- C5 counterexample.  Training targets `[1, 2, 3]`, one query whose three
nearest neighbors are `0, 1, 2` (targets `1, 2, 3`): the positional median
target is `2`, held by training index `1`, but the code returns training
index `0` (the nearest neighbor) wrapped in a length-1 row — `np.argsort` ran
over the reshaped array's trailing singleton axis, so the computed
`median_idx` is always `0`. -/
theorem knnMatchIndex_bug :
    knnMatchIndex [1, 2, 3] [[0, 1, 2]] 3 = [[0]]
      ∧ knnMatchIndexSpec [1, 2, 3] [[0, 1, 2]] 3 = [1]
      ∧ ([[0]] : List (List ℕ)) ≠ [[1]] := by
  refine ⟨?_, ?_, by decide⟩
  · decide
  · decide

/- ### C6: `get_metrics_summary` is a pure read (RegressorCV and
RegressorTimeSeriesCV) -/

/-- Column-wise mean row of a numeric frame (`metrics.mean()`). -/
def dfMeanRow (rows : List (List ℚ)) (ncols : ℕ) : List ℚ :=
  (List.range ncols).map (fun j => meanQ (rows.map (fun r => r.getD j 0)))

/-- Pandas sample standard deviation (ddof = 1) of a column; the square root
is an arbitrary fixed function `sqrtQ` since only its purity matters here. -/
def sampleStdQ (sqrtQ : ℚ → ℚ) (l : List ℚ) : ℚ :=
  sqrtQ ((l.map (fun x => (x - meanQ l) ^ 2)).sum / ((l.length : ℚ) - 1))

/-- Column-wise std row of a numeric frame (`metrics.std()`). -/
def dfStdRow (sqrtQ : ℚ → ℚ) (rows : List (List ℚ)) (ncols : ℕ) : List ℚ :=
  (List.range ncols).map (fun j => sampleStdQ sqrtQ (rows.map (fun r => r.getD j 0)))

/-- numpy/pandas float→int cast: truncation toward zero, kept as a rational. -/
def truncTowardZero (x : ℚ) : ℚ := ((x.num / (x.den : ℤ) : ℤ) : ℚ)

/-- `metrics[int_cols] = metrics[int_cols].astype(int)` on one row: truncate
the columns listed in `intCols`. -/
def truncIntCols (intCols : List ℕ) (row : List ℚ) : List ℚ :=
  (List.range row.length).map (fun j =>
    if j ∈ intCols then truncTowardZero (row.getD j 0) else row.getD j 0)

/-- The fitted state of `RegressorCV` that `get_metrics_summary` can see:
`cv_results_` (fold index, an opaque handle for the stored estimator, and the
three metric columns) plus the out-of-fold attributes. -/
structure RegCVState where
  cv_rows : List (ℕ × ℕ × List ℚ)
  oof_train_ : List (Option ℚ)
  oof_score_ : ℚ
  oof_mape_ : ℚ
  oof_rmse_ : ℚ
  deriving DecidableEq

/-- `RegressorCV.get_metrics_summary`: `drop('reg', axis=1)` (a copying
operation in pandas), `set_index('fold')`, append the mean and std rows, read
`oof_score_` / `oof_mape_` for the verbose print, and return the new frame.
The instance state is returned unchanged alongside the summary (an index
column and the data rows). -/
def getMetricsSummaryCV (sqrtQ : ℚ → ℚ) (s : RegCVState) :
    (List ℕ × List (List ℚ)) × RegCVState :=
  let body := s.cv_rows.map (fun r => r.2.2)
  let summary := body ++ [dfMeanRow body 3, dfStdRow sqrtQ body 3]
  ((s.cv_rows.map (fun r => r.1), summary), s)

/-- The fitted state of `RegressorTimeSeriesCV` seen by its
`get_metrics_summary`: `cv_results_` rows carry fold index, estimator handle,
and the nine numeric columns (sizes, index bounds, metrics). -/
structure TSCVResultsState where
  cv_rows : List (ℕ × ℕ × List ℚ)
  y_test_last_fold_ : List ℚ
  y_pred_last_fold_ : List ℚ
  deriving DecidableEq

/-- `RegressorTimeSeriesCV.get_metrics_summary`: drop `reg`, set the fold
index, append mean and std rows, then cast the six size/index columns
(positions 0–5) to int across all rows.  State returned unchanged. -/
def getMetricsSummaryTS (sqrtQ : ℚ → ℚ) (s : TSCVResultsState) :
    (List ℕ × List (List ℚ)) × TSCVResultsState :=
  let body := s.cv_rows.map (fun r => r.2.2)
  let appended := body ++ [dfMeanRow body 9, dfStdRow sqrtQ body 9]
  let casted := appended.map (truncIntCols [0, 1, 2, 3, 4, 5])
  ((s.cv_rows.map (fun r => r.1), casted), s)

/-- C6.  Calling `get_metrics_summary` twice without an intervening re-fit
returns identical values, and each call leaves the instance's stored fold
results and out-of-fold attributes unchanged — for `RegressorCV` and
`RegressorTimeSeriesCV` alike. -/
theorem getMetricsSummary_idempotent_pure (sqrtQ : ℚ → ℚ) (s : RegCVState)
    (t : TSCVResultsState) :
    (getMetricsSummaryCV sqrtQ s).2 = s
      ∧ (getMetricsSummaryCV sqrtQ ((getMetricsSummaryCV sqrtQ s).2)).1
          = (getMetricsSummaryCV sqrtQ s).1
      ∧ (getMetricsSummaryTS sqrtQ t).2 = t
      ∧ (getMetricsSummaryTS sqrtQ ((getMetricsSummaryTS sqrtQ t).2)).1
          = (getMetricsSummaryTS sqrtQ t).1 :=
  ⟨rfl, rfl, rfl, rfl⟩

/- ### C7: `RegressorTimeSeriesCV.fit` refits the base estimator, `predict`
delegates to it -/

/-- An estimator abstracted to its fitted state: `fit` records the training
data it was given (`none` = not yet fitted). -/
structure SimpleEstimator (D : Type) where
  fitted : Option D
  deriving DecidableEq

/-- `reg.fit(X_train, y_train)`: replace the fitted state with this data. -/
def estFit {D : Type} (_e : SimpleEstimator D) (d : D) : SimpleEstimator D :=
  { fitted := some d }

/-- The attributes of `RegressorTimeSeriesCV` that its fold loop touches:
the base estimator and the per-fold records (fold number, stored clone). -/
structure TSCVState (D : Type) where
  base_reg : SimpleEstimator D
  cv_regs : List (ℕ × SimpleEstimator D)
  deriving DecidableEq

/-- `RegressorTimeSeriesCV.fit`: enumerate the splitter's
(train-index, test-index) pairs; each fold deep-copies `base_reg`
(value semantics: the loop never touches `base_reg` itself), fits the copy on
the fold's train window (`sub trainIdx` extracts that window), and appends it
to `cv_results_`; after the loop, the original `base_reg` itself is fitted on
the full data. -/
def tscvFit {D : Type} (s : TSCVState D) (splits : List (List ℕ × List ℕ))
    (sub : List ℕ → D) (full : D) : TSCVState D :=
  let s1 := splits.enum.foldl
    (fun st ft =>
      let reg := estFit st.base_reg (sub ft.2.1)
      { st with cv_regs := st.cv_regs ++ [(ft.1, reg)] }) s
  { s1 with base_reg := estFit s1.base_reg full }

/-- `RegressorTimeSeriesCV.predict`: `self.base_reg.predict(X)`.  `oracle`
is the wrapped library's prediction function, applied to the estimator's
fitted state. -/
def tscvPredict {D Q : Type} (oracle : Option D → Q → ℚ) (s : TSCVState D) (x : Q) : ℚ :=
  oracle s.base_reg.fitted x

theorem tscvFit_loop_invariant {D : Type} (sub : List ℕ → D)
    (l : List (ℕ × (List ℕ × List ℕ))) (st : TSCVState D) :
    (l.foldl (fun st ft =>
        { st with cv_regs := st.cv_regs ++ [(ft.1, estFit st.base_reg (sub ft.2.1))] })
      st).base_reg = st.base_reg
    ∧ (l.foldl (fun st ft =>
        { st with cv_regs := st.cv_regs ++ [(ft.1, estFit st.base_reg (sub ft.2.1))] })
      st).cv_regs
      = st.cv_regs ++ l.map (fun ft => (ft.1, ⟨some (sub ft.2.1)⟩)) := by
  induction l generalizing st with
  | nil => simp
  | cons x xs ih =>
    simp only [List.foldl_cons, List.map_cons]
    refine ⟨(ih _).1, ?_⟩
    rw [(ih _).2]
    simp [estFit]

theorem enum_map_getD {α β : Type} (l : List α) (g : ℕ × α → β) (k : ℕ) (dflt : β)
    (hk : k < l.length) :
    (l.enum.map g).getD k dflt = g (k, l.get ⟨k, hk⟩) := by
  have hk2 : k < l.enum.length := by simpa using hk
  rw [getD_map_of_lt l.enum g k (0, l.get ⟨k, hk⟩) dflt hk2,
    List.getD_eq_getElem _ _ hk2, List.getElem_enum]
  rfl

/-- C7.  On a freshly constructed `RegressorTimeSeriesCV` (empty
`cv_results_`), `fit` stores for fold `k` a clone fitted on that fold's train
window, then refits the original (non-cloned) base estimator on the entire
dataset; afterwards `predict` returns exactly that fully-refit estimator's
prediction. -/
theorem tscvFit_refits_and_predict_delegates {D Q : Type} [DecidableEq D]
    (s : TSCVState D) (splits : List (List ℕ × List ℕ)) (sub : List ℕ → D) (full : D)
    (oracle : Option D → Q → ℚ) (x : Q) (k : ℕ)
    (hfresh : s.cv_regs = []) (hk : k < splits.length) :
    (tscvFit s splits sub full).base_reg = estFit s.base_reg full
      ∧ (tscvFit s splits sub full).base_reg.fitted = some full
      ∧ tscvPredict oracle (tscvFit s splits sub full) x = oracle (some full) x
      ∧ (tscvFit s splits sub full).cv_regs.length = splits.length
      ∧ (tscvFit s splits sub full).cv_regs.getD k (0, ⟨none⟩)
          = (k, ⟨some (sub (splits.get ⟨k, hk⟩).1)⟩) := by
  have hloop := tscvFit_loop_invariant sub splits.enum s
  have hbase : (tscvFit s splits sub full).base_reg = estFit s.base_reg full := by
    unfold tscvFit
    simp only []
    rw [hloop.1]
  have hregs : (tscvFit s splits sub full).cv_regs
      = splits.enum.map (fun ft => (ft.1, (⟨some (sub ft.2.1)⟩ : SimpleEstimator D))) := by
    unfold tscvFit
    simp only []
    rw [hloop.2, hfresh, List.nil_append]
  refine ⟨hbase, by rw [hbase]; rfl, ?_, ?_, ?_⟩
  · unfold tscvPredict
    rw [hbase]
    rfl
  · rw [hregs, List.length_map, List.enum_length]
  · rw [hregs]
    exact enum_map_getD splits
      (fun ft => ((ft.1 : ℕ), (⟨some (sub ft.2.1)⟩ : SimpleEstimator D))) k (0, ⟨none⟩) hk

/-- Witness for C7 on two concrete expanding-window splits. -/
theorem tscvFit_refits_and_predict_delegates_witness :
    (tscvFit (⟨⟨none⟩, []⟩ : TSCVState (List ℕ)) [([0], [1]), ([0, 1], [2])]
        (fun l => l) [0, 1, 2]).cv_regs.getD 1 (0, ⟨none⟩)
      = (1, ⟨some [0, 1]⟩) :=
  (tscvFit_refits_and_predict_delegates (⟨⟨none⟩, []⟩ : TSCVState (List ℕ))
    [([0], [1]), ([0, 1], [2])] (fun l => l) [0, 1, 2]
    (fun _ _ => 0) 0 1 rfl (by decide)).2.2.2.2

/- ### C8: target scaling in `AutoRegressor.__init__` -/

/-- Mean stored by `StandardScaler.fit` on a 1-column array. -/
def fitScalerMean (ys : List ℚ) : ℚ := ys.sum / ys.length

/-- Population variance (`ddof=0`) that `StandardScaler.fit` computes; its
square root (or 1 when the variance vanishes) is the stored `scale_`. -/
def popVar (ys : List ℚ) : ℚ :=
  (ys.map (fun x => (x - fitScalerMean ys) ^ 2)).sum / ys.length

/-- `StandardScaler.transform` on one value, given the fitted mean and scale. -/
def scalerTransform (mu s x : ℚ) : ℚ := (x - mu) / s

/-- `StandardScaler.inverse_transform` on one value. -/
def scalerInverse (mu s z : ℚ) : ℚ := z * s + mu

/-- The target-handling state of an `AutoRegressor` after `__init__`: the
`target` columns of `self.train` / `self.test` and the stored
`self.target_scaler` (its fitted mean and scale, or `None`). -/
structure ARTargetState where
  train_target : List ℚ
  test_target : List ℚ
  target_scaler : Option (ℚ × ℚ)
  deriving DecidableEq

/-- The `scale_target` branch of `AutoRegressor.__init__`: when enabled, a
`StandardScaler` is fitted on the train target (mean `fitScalerMean`, scale
`s`, the library's square root of `popVar`, passed in as a value since the
embedding is over ℚ), both targets are transformed with it, and the scaler is
stored; otherwise `target_scaler = None` and the targets are untouched. -/
def autoRegressorScaleTarget (trainT testT : List ℚ) (scale_target : Bool) (s : ℚ) :
    ARTargetState :=
  if scale_target then
    let mu := fitScalerMean trainT
    { train_target := trainT.map (scalerTransform mu s)
      test_target := testT.map (scalerTransform mu s)
      target_scaler := some (mu, s) }
  else
    { train_target := trainT, test_target := testT, target_scaler := none }

/-- C8.  With `scale_target=True` the target is standardized before fitting:
both targets are replaced by their transformed values, the scaler (with its
inverse transform) is stored on the instance, and the inverse transform
de-scales any prediction back to the original target scale
(`scalerInverse ∘ scalerTransform = id`, because the stored scale — the square
root of a nonzero variance, or the library's fallback of 1 — is nonzero). -/
theorem autoRegressor_scale_target_invertible (trainT testT : List ℚ) (s x : ℚ)
    (hfit : trainT ≠ [])
    (hs : (popVar trainT ≠ 0 → s ^ 2 = popVar trainT) ∧ (popVar trainT = 0 → s = 1)) :
    (autoRegressorScaleTarget trainT testT true s).target_scaler
        = some (fitScalerMean trainT, s)
      ∧ (autoRegressorScaleTarget trainT testT true s).train_target
        = trainT.map (scalerTransform (fitScalerMean trainT) s)
      ∧ (autoRegressorScaleTarget trainT testT true s).test_target
        = testT.map (scalerTransform (fitScalerMean trainT) s)
      ∧ scalerInverse (fitScalerMean trainT) s
          (scalerTransform (fitScalerMean trainT) s x) = x := by
  have hsne : s ≠ 0 := by
    by_cases hv : popVar trainT = 0
    · rw [hs.2 hv]
      exact one_ne_zero
    · intro hzero
      apply hv
      rw [← hs.1 hv, hzero]
      ring
  refine ⟨rfl, rfl, rfl, ?_⟩
  unfold scalerInverse scalerTransform
  field_simp

/-- Witness for C8: train target `[0, 2]` has mean 1 and variance 1, so the
fitted scale is 1 and the round trip restores 7. -/
theorem autoRegressor_scale_target_invertible_witness :
    scalerInverse (fitScalerMean [0, 2]) 1 (scalerTransform (fitScalerMean [0, 2]) 1 7) = 7 :=
  (autoRegressor_scale_target_invertible [0, 2] [5] 1 7 (by decide)
    ⟨fun _ => by norm_num [popVar, fitScalerMean], fun _ => rfl⟩).2.2.2

/- ### C10: neither `AutoRegressor.__init__` nor `AutoClassifier.__init__`
mutates the caller's DataFrames -/

/-- A pandas DataFrame reduced to named columns of rationals. -/
abbrev DFrame := List (String × List ℚ)

/-- `df[c]` (empty when the column is absent). -/
def dfGetCol (df : DFrame) (c : String) : List ℚ :=
  ((df.filter (fun p => p.1 = c)).headD (c, [])).2

/-- `df[c] = v`: overwrite the column in place, or append it. -/
def dfSetCol (df : DFrame) (c : String) (v : List ℚ) : DFrame :=
  if df.any (fun p => p.1 = c) then df.map (fun p => if p.1 = c then (c, v) else p)
  else df ++ [(c, v)]

/-- `df.drop(columns=c)` / `df.drop(columns=c, inplace=True)`'s new value. -/
def dfDropCol (df : DFrame) (c : String) : DFrame :=
  df.filter (fun p => p.1 ≠ c)

/-- `pd.concat([a, b])`: stack rows (aligned on `a`'s columns — enough for the
frame-effect claim, which only cares that a fresh object is produced). -/
def dfConcatRows (a b : DFrame) : DFrame :=
  a.map (fun p => (p.1, p.2 ++ dfGetCol b p.1))

/-- The first return of `train_test_split(df)` (a fresh frame of `k` rows). -/
def dfTakeRows (df : DFrame) (k : ℕ) : DFrame := df.map (fun p => (p.1, p.2.take k))

/-- The second return of `train_test_split(df)`. -/
def dfDropRows (df : DFrame) (k : ℕ) : DFrame := df.map (fun p => (p.1, p.2.drop k))

/-- Python objects live in a heap of DataFrames addressed by reference. -/
abbrev Heap := List DFrame

/-- Dereference (missing references read as an empty frame). -/
def readH (h : Heap) (r : ℕ) : DFrame := h.getD r []

/-- In-place mutation of the object behind `r`. -/
def writeH (h : Heap) (r : ℕ) (df : DFrame) : Heap := h.set r df

/-- Allocate a fresh object (`.copy()`, `pd.concat`, `train_test_split`
results) and return its reference. -/
def allocH (h : Heap) (df : DFrame) : Heap × ℕ := (h ++ [df], h.length)

/-- The `scale_target` tail of `AutoRegressor.__init__`: fit a
`StandardScaler` on `self.train['target']` and overwrite the `target`
columns of `self.train` and `self.test` (references `str` and `ste`) with the
transformed values; `s` is the scaler's fitted scale. -/
def autoScaleTargetStep (h : Heap) (sd str ste : ℕ) (scale_target : Bool) (s : ℚ) :
    Heap × ℕ × ℕ × ℕ :=
  if scale_target then
    let mu := fitScalerMean (dfGetCol (readH h str) "target")
    let h1 := writeH h str (dfSetCol (readH h str) "target"
      ((dfGetCol (readH h str) "target").map (scalerTransform mu s)))
    let h2 := writeH h1 ste (dfSetCol (readH h1 ste) "target"
      ((dfGetCol (readH h1 ste) "target").map (scalerTransform mu s)))
    (h2, sd, str, ste)
  else (h, sd, str, ste)

/-- `AutoRegressor.__init__` restricted to its DataFrame traffic, operating on
the heap.  `dataRef` is `Some` reference when `data` was passed, otherwise
`trainRef` / `testRef` are used.  Either way every mutated frame is first
allocated fresh (`.copy()`, the `train_test_split` results, `pd.concat`);
`splitK` stands for the split point `train_test_split` chooses and `log1p`
for `np.log1p`.  Returns the final heap and the references held in
`self.data`, `self.train`, `self.test`. -/
def autoRegressorInitFrames (h0 : Heap) (dataRef : Option ℕ) (trainRef testRef : ℕ)
    (target_col : String) (log_target : Bool) (log1p : ℚ → ℚ) (splitK : ℕ)
    (scale_target : Bool) (s : ℚ) : Heap × ℕ × ℕ × ℕ :=
  match dataRef with
  | some dr =>
    let ha := allocH h0 (readH h0 dr)
    let h1 := ha.1
    let sd := ha.2
    let tcolv := dfGetCol (readH h1 sd) target_col
    let tv := if log_target then tcolv.map log1p else tcolv
    let h2 := writeH h1 sd (dfSetCol (readH h1 sd) "target" tv)
    let h3 := writeH h2 sd (dfDropCol (readH h2 sd) target_col)
    let hb := allocH h3 (dfTakeRows (readH h3 sd) splitK)
    let h4 := hb.1
    let str := hb.2
    let hc := allocH h4 (dfDropRows (readH h4 sd) splitK)
    let h5 := hc.1
    let ste := hc.2
    autoScaleTargetStep h5 sd str ste scale_target s
  | none =>
    let ha := allocH h0 (readH h0 trainRef)
    let h1 := ha.1
    let str := ha.2
    let h2 := writeH h1 str (dfSetCol (readH h1 str) "target"
      (dfGetCol (readH h1 str) target_col))
    let h3 := writeH h2 str (dfDropCol (readH h2 str) target_col)
    let hb := allocH h3 (readH h3 testRef)
    let h4 := hb.1
    let ste := hb.2
    let h5 := writeH h4 ste (dfSetCol (readH h4 ste) "target"
      (dfGetCol (readH h4 ste) target_col))
    let h6 := writeH h5 ste (dfDropCol (readH h5 ste) target_col)
    let hc := allocH h6 (dfConcatRows (readH h6 trainRef) (readH h6 testRef))
    let h7 := hc.1
    let sd := hc.2
    autoScaleTargetStep h7 sd str ste scale_target s

/-- `AutoClassifier.__init__`'s DataFrame traffic: identical to the
regressor's two paths, with no target-scaling step. -/
def autoClassifierInitFrames (h0 : Heap) (dataRef : Option ℕ) (trainRef testRef : ℕ)
    (target_col : String) (log_target : Bool) (log1p : ℚ → ℚ) (splitK : ℕ) :
    Heap × ℕ × ℕ × ℕ :=
  match dataRef with
  | some dr =>
    let ha := allocH h0 (readH h0 dr)
    let h1 := ha.1
    let sd := ha.2
    let tcolv := dfGetCol (readH h1 sd) target_col
    let tv := if log_target then tcolv.map log1p else tcolv
    let h2 := writeH h1 sd (dfSetCol (readH h1 sd) "target" tv)
    let h3 := writeH h2 sd (dfDropCol (readH h2 sd) target_col)
    let hb := allocH h3 (dfTakeRows (readH h3 sd) splitK)
    let h4 := hb.1
    let str := hb.2
    let hc := allocH h4 (dfDropRows (readH h4 sd) splitK)
    let h5 := hc.1
    let ste := hc.2
    (h5, sd, str, ste)
  | none =>
    let ha := allocH h0 (readH h0 trainRef)
    let h1 := ha.1
    let str := ha.2
    let h2 := writeH h1 str (dfSetCol (readH h1 str) "target"
      (dfGetCol (readH h1 str) target_col))
    let h3 := writeH h2 str (dfDropCol (readH h2 str) target_col)
    let hb := allocH h3 (readH h3 testRef)
    let h4 := hb.1
    let ste := hb.2
    let h5 := writeH h4 ste (dfSetCol (readH h4 ste) "target"
      (dfGetCol (readH h4 ste) target_col))
    let h6 := writeH h5 ste (dfDropCol (readH h5 ste) target_col)
    let hc := allocH h6 (dfConcatRows (readH h6 trainRef) (readH h6 testRef))
    let h7 := hc.1
    let sd := hc.2
    (h7, sd, str, ste)

theorem readH_writeH_ne (h : Heap) (w r : ℕ) (df : DFrame) (hne : w ≠ r) :
    readH (writeH h w df) r = readH h r :=
  getD_set_ne h w r df [] hne

theorem readH_allocH (h : Heap) (df : DFrame) (r : ℕ) (hr : r < h.length) :
    readH (allocH h df).1 r = readH h r :=
  getD_append_left h [df] r [] hr

theorem writeH_length (h : Heap) (w : ℕ) (df : DFrame) :
    (writeH h w df).length = h.length := by
  simp [writeH]

theorem allocH_fst_length (h : Heap) (df : DFrame) :
    (allocH h df).1.length = h.length + 1 := by
  simp [allocH]

theorem autoScaleTargetStep_frame (h : Heap) (sd str ste : ℕ) (st : Bool) (s : ℚ)
    (r : ℕ) (h1 : str ≠ r) (h2 : ste ≠ r) :
    readH (autoScaleTargetStep h sd str ste st s).1 r = readH h r := by
  unfold autoScaleTargetStep
  split
  · dsimp only
    rw [readH_writeH_ne _ _ _ _ h2, readH_writeH_ne _ _ _ _ h1]
  · rfl

/-- C10.  Constructing an `AutoRegressor` or an `AutoClassifier` never mutates
the caller-supplied `data`, `train`, or `test` DataFrames: every object the
constructors write to was freshly allocated (`.copy()`, `train_test_split`
outputs, `pd.concat`), so every pre-existing heap reference — in particular
the caller's frames — still dereferences to its old value afterwards, in both
construction modes (`data` given, or `train`/`test` given). -/
theorem autoInit_no_caller_mutation (h0 : Heap) (dataRef : Option ℕ)
    (trainRef testRef : ℕ) (target_col : String) (log_target : Bool)
    (log1p : ℚ → ℚ) (splitK : ℕ) (scale_target : Bool) (s : ℚ) (r : ℕ)
    (hr : r < h0.length) :
    readH (autoRegressorInitFrames h0 dataRef trainRef testRef target_col log_target
        log1p splitK scale_target s).1 r = readH h0 r
      ∧ readH (autoClassifierInitFrames h0 dataRef trainRef testRef target_col
        log_target log1p splitK).1 r = readH h0 r := by
  constructor
  · cases dataRef with
    | some dr =>
      unfold autoRegressorInitFrames
      dsimp only
      rw [autoScaleTargetStep_frame]
      · rw [readH_allocH _ _ _ (by
            simp only [allocH_fst_length, writeH_length, List.length_append]
            omega),
          readH_allocH _ _ _ (by
            simp only [allocH_fst_length, writeH_length, List.length_append]
            omega),
          readH_writeH_ne _ _ _ _ (by
            simp only [allocH, List.length_append, List.length_cons, List.length_nil]
            omega),
          readH_writeH_ne _ _ _ _ (by
            simp only [allocH, List.length_append, List.length_cons, List.length_nil]
            omega),
          readH_allocH _ _ _ hr]
      · simp only [allocH, writeH_length, List.length_append, List.length_cons,
          List.length_nil]
        omega
      · simp only [allocH, allocH_fst_length, writeH_length, List.length_append,
          List.length_cons, List.length_nil]
        omega
    | none =>
      unfold autoRegressorInitFrames
      dsimp only
      rw [autoScaleTargetStep_frame]
      · rw [readH_allocH _ _ _ (by
            simp only [allocH_fst_length, writeH_length, List.length_append]
            omega),
          readH_writeH_ne _ _ _ _ (by
            simp only [allocH, allocH_fst_length, writeH_length, List.length_append,
              List.length_cons, List.length_nil]
            omega),
          readH_writeH_ne _ _ _ _ (by
            simp only [allocH, allocH_fst_length, writeH_length, List.length_append,
              List.length_cons, List.length_nil]
            omega),
          readH_allocH _ _ _ (by
            simp only [allocH_fst_length, writeH_length, List.length_append]
            omega),
          readH_writeH_ne _ _ _ _ (by
            simp only [allocH, List.length_append, List.length_cons, List.length_nil]
            omega),
          readH_writeH_ne _ _ _ _ (by
            simp only [allocH, List.length_append, List.length_cons, List.length_nil]
            omega),
          readH_allocH _ _ _ hr]
      · simp only [allocH, writeH_length, List.length_append, List.length_cons,
          List.length_nil]
        omega
      · simp only [allocH, allocH_fst_length, writeH_length, List.length_append,
          List.length_cons, List.length_nil]
        omega
  · cases dataRef with
    | some dr =>
      unfold autoClassifierInitFrames
      dsimp only
      rw [readH_allocH _ _ _ (by
          simp only [allocH_fst_length, writeH_length, List.length_append]
          omega),
        readH_allocH _ _ _ (by
          simp only [allocH_fst_length, writeH_length, List.length_append]
          omega),
        readH_writeH_ne _ _ _ _ (by
          simp only [allocH, List.length_append, List.length_cons, List.length_nil]
          omega),
        readH_writeH_ne _ _ _ _ (by
          simp only [allocH, List.length_append, List.length_cons, List.length_nil]
          omega),
        readH_allocH _ _ _ hr]
    | none =>
      unfold autoClassifierInitFrames
      dsimp only
      rw [readH_allocH _ _ _ (by
          simp only [allocH_fst_length, writeH_length, List.length_append]
          omega),
        readH_writeH_ne _ _ _ _ (by
          simp only [allocH, allocH_fst_length, writeH_length, List.length_append,
            List.length_cons, List.length_nil]
          omega),
        readH_writeH_ne _ _ _ _ (by
          simp only [allocH, allocH_fst_length, writeH_length, List.length_append,
            List.length_cons, List.length_nil]
          omega),
        readH_allocH _ _ _ (by
          simp only [allocH_fst_length, writeH_length, List.length_append]
          omega),
        readH_writeH_ne _ _ _ _ (by
          simp only [allocH, List.length_append, List.length_cons, List.length_nil]
          omega),
        readH_writeH_ne _ _ _ _ (by
          simp only [allocH, List.length_append, List.length_cons, List.length_nil]
          omega),
        readH_allocH _ _ _ hr]

/-- Witness for C10 on a two-frame heap, reading back the caller's `train`
frame (reference 0) after both constructions in `train`/`test` mode. -/
theorem autoInit_no_caller_mutation_witness :
    readH (autoRegressorInitFrames [[("a", [1])], [("b", [2])]] none 0 1 "a" false
        (fun x => x) 1 true 1).1 0 = readH [[("a", [1])], [("b", [2])]] 0
      ∧ readH (autoClassifierInitFrames [[("a", [1])], [("b", [2])]] none 0 1 "a" false
        (fun x => x) 1).1 0 = readH [[("a", [1])], [("b", [2])]] 0 :=
  autoInit_no_caller_mutation [[("a", [1])], [("b", [2])]] none 0 1 "a" false
    (fun x => x) 1 true 1 0 (by decide)
